/-
Verification of the forecast acquisition, caching and classification pipeline
of the "Painel de Umidade Relativa – Brasil" dashboard (src/app.py), as a
shallow embedding in Lean 4.

Modelling conventions:
  * Python/pandas scalar cells are modelled by `PyVal`: `none_` stands for
    NaN / NaT / None (the single "missing" sentinel used by the code),
    `num` for int/float values (exact rationals; float rounding is not
    relevant to any of the branching the code performs), `str` for strings
    and `date` for `datetime.date` values.
  * Calendar dates are encoded as integers `y*10000 + m*100 + d`; this
    encoding is strictly monotone in chronological order for the Gregorian
    fields, which is all the code relies on (equality tests and sorting).
    `today + timedelta(days=i)` appears only with an abstract `today`, so
    the integer successor stands in for the day successor.
  * Library text parsers (`float`, `pd.to_numeric`, `pd.to_datetime`) are
    modelled on the plain decimal / ISO-date fragment actually exercised by
    the program; exotic accepted spellings (exponents, month names, ...)
    are outside the modelled fragment and behave as unparseable.
-/
import Mathlib

set_option linter.unusedVariables false

/-- A Python scalar cell as it flows through the pandas frames of app.py:
`none_` is NaN/NaT/None, `num` an int/float, `str` a string, `date` a
`datetime.date` (integer-encoded `y*10000+m*100+d`). -/
inductive PyVal where
  | none_ : PyVal
  | str : String → PyVal
  | num : ℚ → PyVal
  | date : ℤ → PyVal
  deriving DecidableEq, Repr

/-- The list of class labels `CLASS_ORDER` of app.py (best to worst). -/
def CLASS_ORDER : List String :=
  ["Ideal (>60%)",
   "Quase ideal (41–60%)",
   "Observação (30–40%)",
   "Atenção (20–29%)",
   "Caso de alerta (12–19%)",
   "Emergência (<12%)"]

/-- `classificar_rhmin` of app.py: `pd.isna(v)` is the `none` case, the
numeric branches are the successive range tests on `float(v)`, and the
final `return np.nan` is the trailing `none`. -/
def classificar_rhmin (v : Option ℚ) : Option String :=
  match v with
  | none => none
  | some v =>
    if 60 < v then some "Ideal (>60%)"
    else if 41 ≤ v ∧ v ≤ 60 then some "Quase ideal (41–60%)"
    else if 30 ≤ v ∧ v ≤ 40 then some "Observação (30–40%)"
    else if 20 ≤ v ∧ v ≤ 29 then some "Atenção (20–29%)"
    else if 12 ≤ v ∧ v ≤ 19 then some "Caso de alerta (12–19%)"
    else if 0 ≤ v ∧ v < 12 then some "Emergência (<12%)"
    else none

/-! ### Text utilities shared by the pipeline

These model the exact string operations the source performs through
pandas / the Python standard library, on the plain-decimal / ISO-date
fragment the program exercises. -/

/-- Value of a list of decimal digit characters, most significant first. -/
def digitsToNat (l : List Char) : ℕ :=
  l.foldl (fun n c => 10 * n + (c.toNat - 48)) 0

/-- Decimal digit character for `n < 10`. -/
def digitChar10 (n : ℕ) : Char := Char.ofNat (48 + n % 10)

/-- Fuel-driven decimal printer for naturals (structural, so it reduces in
the kernel); `natDigits` supplies enough fuel. -/
def natDigitsAux : ℕ → ℕ → List Char
  | 0, _ => []
  | f + 1, n =>
    if n < 10 then [digitChar10 n]
    else natDigitsAux f (n / 10) ++ [digitChar10 (n % 10)]

/-- The decimal digits of a natural number, most significant first. -/
def natDigits (n : ℕ) : List Char := natDigitsAux (n + 1) n

/-- `str.zfill(w)` of Python on a sign-free string: left-pad with `'0'`
up to width `w`. -/
def zfill (w : ℕ) (s : String) : String :=
  if s.length < w then String.mk (List.replicate (w - s.length) '0') ++ s else s

/-- `.str.extract(r"(\d+)")[0]` of pandas: the first maximal run of decimal
digits of a string, `none` when the string has no digit. -/
def firstDigitRun (s : String) : Option String :=
  let l := (s.data.dropWhile (fun c => !c.isDigit)).takeWhile Char.isDigit
  if l = [] then none else some (String.mk l)

/-- Unsigned decimal parser: digits with an optional single decimal point
(`"30"`, `"1."`, `".5"`), the fragment of numeral spellings the data uses. -/
def parseUnsignedDec (l : List Char) : Option ℚ :=
  let a := l.takeWhile (fun c => c ≠ '.')
  match l.dropWhile (fun c => c ≠ '.') with
  | [] =>
    if a ≠ [] ∧ a.all Char.isDigit then some (digitsToNat a : ℚ) else none
  | _ :: frac =>
    if a.all Char.isDigit ∧ frac.all Char.isDigit ∧ (a ≠ [] ∨ frac ≠ []) then
      some ((digitsToNat a : ℚ) + (digitsToNat frac : ℚ) / (10 ^ frac.length : ℚ))
    else none

/-- Signed decimal parser on a character list. -/
def parseNumList (l : List Char) : Option ℚ :=
  match l with
  | '-' :: rest => (parseUnsignedDec rest).map (fun q => -q)
  | '+' :: rest => parseUnsignedDec rest
  | l => parseUnsignedDec l

/-- Signed decimal parser, the common core of `float(...)` and
`pd.to_numeric(..., errors="coerce")` on the decimal fragment; produces
`none` for text neither accepts as a plain decimal. -/
def parseNumStr (s : String) : Option ℚ := parseNumList s.data

/-- `str.strip()`: drop leading and trailing whitespace. -/
def trimChars (l : List Char) : List Char :=
  ((l.dropWhile Char.isWhitespace).reverse.dropWhile Char.isWhitespace).reverse

/-- Python `float(s)` on strings: outer `none` means the call raises,
`some none` that it returns the NaN float, `some (some q)` a finite value.
Whitespace is stripped and `"nan"` (any case) accepted, as `float` does;
infinities and exponent forms are outside the modelled fragment. -/
def pyFloat (s : String) : Option (Option ℚ) :=
  let t := trimChars s.data
  if t.map Char.toLower = "nan".data then some none
  else match parseNumList t with
    | some q => some (some q)
    | none => none

/-- Split a character list on a separator character (like `str.split`). -/
def splitOnChar (c : Char) (l : List Char) : List (List Char) :=
  l.foldr (fun x acc =>
    match acc with
    | [] => if x = c then [[], []] else [[x]]
    | a :: rest => if x = c then [] :: a :: rest else (x :: a) :: rest) [[]]

/-- `pd.to_datetime(s).date()` on the ISO `YYYY-MM-DD` fragment the INMET
payloads use, encoded as `y*10000 + m*100 + d`; `none` models the raise
that `except`/`errors="coerce"` turns into a skip. Other date spellings
pandas accepts are outside the modelled fragment. -/
def parseDateStr (s : String) : Option ℤ :=
  match splitOnChar '-' s.data with
  | [y, m, d] =>
    if y.all Char.isDigit ∧ y.length = 4 ∧
       m.all Char.isDigit ∧ m ≠ [] ∧ m.length ≤ 2 ∧
       d.all Char.isDigit ∧ d ≠ [] ∧ d.length ≤ 2 then
      let mn := digitsToNat m
      let dn := digitsToNat d
      if 1 ≤ mn ∧ mn ≤ 12 ∧ 1 ≤ dn ∧ dn ≤ 31 then
        some ((digitsToNat y : ℤ) * 10000 + (mn : ℤ) * 100 + (dn : ℤ))
      else none
    else none
  | _ => none

/-! ### JSON values and the response normalizer (`_parse_inmet_resp`) -/

/-- A decoded JSON body (`r.json()` output). Objects keep key order, as
Python dicts do. -/
inductive Json where
  | null : Json
  | bool : Bool → Json
  | num : ℚ → Json
  | str : String → Json
  | arr : List Json → Json
  | obj : List (String × Json) → Json

/-- Python dict lookup `j[k]` / `k in j` on an object's key-value list. -/
def jsonLookup (k : String) : List (String × Json) → Option Json
  | [] => none
  | (k2, v) :: rest => if k2 = k then some v else jsonLookup k rest

/-- The alias list of `_get_min` in source order. -/
def aliasKeys : List String :=
  ["umidade_min", "ur_min", "umi_min", "umidadeMin", "UR_min"]

/-- Python `float(x)` on a JSON value: outer `none` = raises, `some none`
= NaN, `some (some q)` = finite value. `bool` converts (it is an `int`
subclass); `null`, lists and dicts raise. -/
def floatOfJson : Json → Option (Option ℚ)
  | .num q => some (some q)
  | .str s => pyFloat s
  | .bool b => some (some (if b then 1 else 0))
  | _ => none

/-- The alias loop of `_get_min`: first alias key present in the record
whose value `float(...)` accepts wins (a raising conversion falls through
to the next alias via `except: pass`). -/
def scanAliases (kvs : List (String × Json)) : List String → Option (Option ℚ)
  | [] => none
  | k :: rest =>
    match jsonLookup k kvs with
    | some v =>
      match floatOfJson v with
      | some r => some r
      | none => scanAliases kvs rest
    | none => scanAliases kvs rest

/-- `isinstance(x, (int, float, str))` (`bool` is an `int`). -/
def isScalarJson : Json → Bool
  | .num _ => true
  | .str _ => true
  | .bool _ => true
  | _ => false

/-- One element under `pd.to_numeric(pd.Series(v), errors="coerce")`:
outer `none` = the conversion raises (nested containers do, even with
`coerce`), `some none` = coerced to NaN, `some (some q)` = numeric. -/
def elemToNumeric : Json → Option (Option ℚ)
  | .num q => some (some q)
  | .str s => some (parseNumStr s)
  | .bool b => some (some (if b then 1 else 0))
  | .null => some none
  | _ => none

/-- Minimum of a list of rationals, `none` on the empty list. -/
def listMinQ : List ℚ → Option ℚ
  | [] => none
  | q :: rest => some (rest.foldl min q)

/-- One iteration of the hourly-list fallback of `_get_min`: a nonempty
list/tuple whose head is scalar, coerced elementwise; `np.nanmin` over the
values that survived coercion. `none` means this value is skipped (shape
check fails, the conversion raises, or `vals.notna().any()` is false). -/
def tryListMin (v : Json) : Option ℚ :=
  match v with
  | .arr (x :: xs) =>
    if isScalarJson x then
      match (x :: xs).mapM elemToNumeric with
      | none => none
      | some vals =>
        match listMinQ (vals.filterMap id) with
        | some m => some m
        | none => none
    else none
  | _ => none

/-- The fallback loop of `_get_min` over the record's values in order. -/
def scanValuesMin : List (String × Json) → Option ℚ
  | [] => none
  | (_, v) :: rest =>
    match tryListMin v with
    | some m => some m
    | none => scanValuesMin rest

/-- `_get_min` of app.py: alias scan first, then the hourly-list fallback,
else NaN (`none`); non-dict records yield NaN. -/
def _get_min (d : Json) : Option ℚ :=
  match d with
  | .obj kvs =>
    match scanAliases kvs aliasKeys with
    | some r => r
    | none => scanValuesMin kvs
  | _ => none

/-- A normalized per-entity forecast: the Python dict `{date -> rhmin}`
(insertion-ordered association list; values may be the NaN float = `none`). -/
abbrev DayMap := List (ℤ × Option ℚ)

/-- Python dict assignment `out[d] = v`: update in place if the key exists,
else append. -/
def dictInsertDate (d : ℤ) (v : Option ℚ) (m : DayMap) : DayMap :=
  if m.any (fun p => p.1 = d) then m.map (fun p => if p.1 = d then (d, v) else p)
  else m ++ [(d, v)]

/-- The collection loop of `_parse_inmet_resp`: each key that parses as a
date contributes `_get_min` of its record; unparseable keys `continue`. -/
def collectDates (kvs : List (String × Json)) : DayMap :=
  kvs.foldl (fun acc kv =>
    match parseDateStr kv.1 with
    | none => acc
    | some d => dictInsertDate d (_get_min kv.2) acc) []

/-- The top-level unwrap of `_parse_inmet_resp`: if the body is a dict with
the entity identifier as a key holding a dict, descend into it. -/
def unwrapIbge (ibge : String) (j : Json) : Json :=
  match j with
  | .obj kvs =>
    match jsonLookup ibge kvs with
    | some (.obj inner) => .obj inner
    | _ => j
  | _ => j

/-- `_parse_inmet_resp` of app.py. -/
def _parse_inmet_resp (ibge : String) (j : Json) : DayMap :=
  match unwrapIbge ibge j with
  | .obj kvs => collectDates kvs
  | _ => []

/-! ### The forecast client (`_fetch_one`) -/

/-- The observable outcome of `requests.get(url, timeout=...)`:
`raise` models a raised exception (timeout, connection error), `resp`
a response with its status code and its body (`none` when `r.json()`
raises on a malformed body). -/
inductive HttpOutcome where
  | raise : HttpOutcome
  | resp : ℕ → Option Json → HttpOutcome

/-- `_fetch_one` of app.py. The `requests.get` call sits outside any
`try`, so a raised network error propagates (`Except.error`); a non-200
status and an undecodable body return the empty dict. -/
def _fetch_one (ibge : String) (o : HttpOutcome) : Except Unit DayMap :=
  match o with
  | .raise => .error ()
  | .resp status body =>
    if status ≠ 200 then .ok []
    else
      match body with
      | none => .ok []
      | some j => .ok (_parse_inmet_resp ibge j)

/-! ### Frames, the concurrent collector (`build_df`) and the sanitizer -/

/-- A row of the forecast frame, with the eight columns every frame the
pipeline handles carries (`build_df` and `_demo_df` both emit all eight,
so the `need`-columns check of `_sanitize_df` always passes and the
`"RHmax" in df.columns` branch is always taken). -/
structure Row where
  cd_mun : PyVal
  nm_mun : PyVal
  sigla_uf : PyVal
  lat : PyVal
  lon : PyVal
  data : PyVal
  rhmin : PyVal
  rhmax : PyVal
  deriving DecidableEq, Repr

/-- A row of the reference (municipality) frame after the column renaming
in `load_attr_municipios`, i.e. one `row` of `attr.to_dict("records")`. -/
structure Ent where
  cd_mun : PyVal
  nm_mun : PyVal
  sigla_uf : PyVal
  lat : PyVal
  lon : PyVal
  deriving DecidableEq, Repr

/-- Python `day_map.get(d, np.nan)`. -/
def dayGet (m : DayMap) (d : ℤ) : Option ℚ :=
  match m.find? (fun p => p.1 = d) with
  | some p => p.2
  | none => none

/-- `target_days` of `build_df`: today and the next four days, computed
once at the start of the run. -/
def target_days (today : ℤ) : List ℤ :=
  (List.range 5).map (fun i => today + (i : ℤ))

/-- The per-future body of the collection loop of `build_df`: `fut.result()`
either yields a day map or raises (`.error`), which the
`except Exception: day_map = {}` turns into the empty dict; then one row is
appended per target date, `RHmin` looked up in the map (absent → NaN) and
`RHmax` always NaN. -/
def entity_rows (today : ℤ) (e : Ent) (res : Except Unit DayMap) : List Row :=
  let day_map := match res with
    | .ok m => m
    | .error _ => []
  (target_days today).map (fun d =>
    { cd_mun := e.cd_mun, nm_mun := e.nm_mun, sigla_uf := e.sigla_uf,
      lat := e.lat, lon := e.lon, data := PyVal.date d,
      rhmin := match dayGet day_map d with
               | some q => PyVal.num q
               | none => PyVal.none_,
      rhmax := PyVal.none_ })

/-- The collection loop of `build_df` over the futures in completion order:
`jobs` pairs each entity record with the outcome of its `_fetch_one` future.
The `time.sleep` pacing and the final all-NaN warning print have no effect
on the returned frame and are not modelled. -/
def build_df (today : ℤ) (jobs : List (Ent × Except Unit DayMap)) : List Row :=
  jobs.foldl (fun rows j => rows ++ entity_rows today j.1 j.2) []

/-- The string a cell shows to `.astype(str).str.extract(r"(\d+)")[0]`,
reduced to its first digit run: strings keep their first digit run
(`none` if digit-free — in particular `str(nan) = "nan"` has none);
the decimal form of a number contributes the digits of its integer part;
the ISO form of a date contributes its year digits. -/
def extractDigitsCell : PyVal → Option String
  | .str s => firstDigitRun s
  | .none_ => none
  | .num q => some (String.mk (natDigits (Int.floor |q|).toNat))
  | .date d => some (String.mk (natDigits (d.toNat / 10000)))

/-- The identifier normalization both `load_attr_municipios` and
`_sanitize_df` apply: `.astype(str).str.extract(r"(\d+)")[0].str.zfill(7)`. -/
def sanCdCell (x : PyVal) : PyVal :=
  match extractDigitsCell x with
  | none => .none_
  | some r => .str (zfill 7 r)

/-- `pd.to_datetime(x, errors="coerce").dt.date` per cell. Numeric cells
coerce under pandas' nanosecond-epoch reading; every magnitude the pipeline
could carry is below one day, landing on the epoch date (1969-12-31 for
negatives) — never exercised by the claims. -/
def sanDateCell : PyVal → PyVal
  | .date d => .date d
  | .none_ => .none_
  | .str s =>
    match parseDateStr s with
    | some d => .date d
    | none => .none_
  | .num q => .date (if 0 ≤ q then 19700101 else 19691231)

/-- `pd.to_numeric(x, errors="coerce")` per cell. -/
def sanNumCell : PyVal → PyVal
  | .num q => .num q
  | .none_ => .none_
  | .str s =>
    match parseNumStr s with
    | some q => .num q
    | none => .none_
  | .date _ => .none_

/-- The column coercions of `_sanitize_df` on one row (`NM_MUN` and
`SIGLA_UF` are untouched by the source). -/
def sanRow (r : Row) : Row :=
  { r with cd_mun := sanCdCell r.cd_mun, data := sanDateCell r.data,
           lat := sanNumCell r.lat, lon := sanNumCell r.lon,
           rhmin := sanNumCell r.rhmin, rhmax := sanNumCell r.rhmax }

/-- Sort key on `CD_MUN`: missing identifiers sort last
(`na_position="last"`). -/
def cdKey (r : Row) : WithTop String :=
  match r.cd_mun with
  | .str s => (s : WithTop String)
  | _ => ⊤

/-- Sort key on `data`: missing dates sort last. -/
def dateKey (r : Row) : WithTop ℤ :=
  match r.data with
  | .date d => (d : WithTop ℤ)
  | _ => ⊤

/-- The `sort_values(["CD_MUN","data"])` key, lexicographic. -/
def rowKey (r : Row) : Lex (WithTop String × WithTop ℤ) :=
  toLex (cdKey r, dateKey r)

/-- Row comparison used by the sanitizer's sort. -/
def rowLE (a b : Row) : Prop := rowKey a ≤ rowKey b

instance : DecidableRel rowLE :=
  fun a b => inferInstanceAs (Decidable (rowKey a ≤ rowKey b))

instance : IsTotal Row rowLE := ⟨fun a b => le_total (rowKey a) (rowKey b)⟩

instance : IsTrans Row rowLE := ⟨fun _ _ _ h1 h2 => le_trans h1 h2⟩

/-- `_sanitize_df` of app.py: coerce every column, then
`sort_values(["CD_MUN","data"]).reset_index(drop=True)`, modelled as a
stable sort on the (identifier, date) key with missing keys last. -/
def _sanitize_df (df : List Row) : List Row :=
  List.insertionSort rowLE (df.map sanRow)

/-! ### The reference data loader (`load_attr_municipios`) -/

/-- `drop_duplicates("CD_MUN")`: keep the first row for each identifier
value, in order; pandas groups the NaN identifiers together as one value. -/
def dedupByCdAux (seen : List PyVal) : List Ent → List Ent
  | [] => []
  | r :: rest =>
    if r.cd_mun ∈ seen then dedupByCdAux seen rest
    else r :: dedupByCdAux (r.cd_mun :: seen) rest

/-- First-wins deduplication by the `CD_MUN` cell. -/
def dedupByCd (l : List Ent) : List Ent := dedupByCdAux [] l

/-- The row processing of `load_attr_municipios` after the file/column
resolution (the existence and latitude/longitude-column checks raise
`SystemExit` before any row work and are modelled at the `get_data`
boundary as the `PyErr.systemExit` pipeline outcome): normalize the
identifier, `dropna(subset=["lat","lon"])`, then
`drop_duplicates("CD_MUN")`. -/
def load_attr_municipios (rows : List Ent) : List Ent :=
  dedupByCd (((rows.map (fun r => { r with cd_mun := sanCdCell r.cd_mun })).filter
    (fun r => decide (r.lat ≠ PyVal.none_) && decide (r.lon ≠ PyVal.none_))))

/-! ### Demo fallback and the daily cache (`_demo_df`, `_CACHE`, `get_data`) -/

/-- `_demo_df` of app.py: three fixed municipalities, five days from
`today`, `RHmin` cycling through `vals` (`vals[i % 5] = vals[i]` here),
`RHmax` NaN. -/
def _demo_df (today : ℤ) : List Row :=
  let vals : List ℚ := [55, 35, 18, 62, 28]
  let mkRows := fun (cd nm uf : String) (la lo : ℚ) =>
    (List.range 5).map (fun (i : ℕ) =>
      ({ cd_mun := PyVal.str cd, nm_mun := PyVal.str nm, sigla_uf := PyVal.str uf,
         lat := PyVal.num la, lon := PyVal.num lo, data := PyVal.date (today + (i : ℤ)),
         rhmin := PyVal.num (vals.getD (i % 5) 0), rhmax := PyVal.none_ } : Row))
  mkRows "5300108" "Brasília" "DF" ((-1578)/100) ((-4793)/100)
    ++ mkRows "3550308" "São Paulo" "SP" ((-2355)/100) ((-4663)/100)
    ++ mkRows "3304557" "Rio de Janeiro" "RJ" ((-2290)/100) ((-4317)/100)

/-- A raised Python error, split by its base class: `SystemExit` derives
from `BaseException` but *not* from `Exception`, so `except Exception`
clauses do not catch it. -/
inductive PyErr where
  | systemExit : String → PyErr
  | exc : String → PyErr
  deriving DecidableEq, Repr

/-- The module-level `_CACHE = {"key": None, "df": None}` dict. -/
structure CacheS where
  key : Option String
  df : Option (List Row)
  deriving DecidableEq, Repr

/-- The `try: df = build_df(...) except Exception: df = _demo_df()` block
of `get_data`: an `Exception` from the pipeline falls back to the demo
frame, while a `SystemExit` (the loader's fatal errors) is not caught and
propagates. -/
def rebuildStep (today : ℤ) (pipe : Except PyErr (List Row)) :
    Except PyErr (List Row) :=
  match pipe with
  | .ok df => .ok df
  | .error (.exc _) => .ok (_demo_df today)
  | .error (.systemExit m) => .error (.systemExit m)

/-- `get_data` of app.py. `key` is the `datetime.now(BRT).strftime("%Y-%m-%d")`
date string, `pipe` the outcome of `build_df(ATTR_XLSX)` if the rebuild path
runs, `c` the current `_CACHE` contents. The result carries the returned
frame, the new cache contents, and an instrumentation flag that is `true`
exactly when the rebuild path (not the stored-frame return) executed. -/
def get_data (force : Bool) (key : String) (today : ℤ)
    (pipe : Except PyErr (List Row)) (c : CacheS) :
    Except PyErr (List Row × CacheS × Bool) :=
  if h : force = false ∧ c.key = some key ∧ c.df.isSome = true then
    .ok (c.df.get h.2.2, c, false)
  else
    match rebuildStep today pipe with
    | .error e => .error e
    | .ok df0 =>
      let df1 := _sanitize_df df0
      .ok (df1, { key := some key, df := some df1 }, true)

/-! ### Interleaving model for concurrent `get_data` calls (`_CACHE` races)

Two callers run `get_data` concurrently over the shared `_CACHE`. Under
the CPython GIL each single dict operation is atomic — the read of the
`(key, df)` pair in the hit test, and the final `_CACHE.update(key=..., df=...)`
writing both fields in one call — but nothing serializes the
check-key / rebuild / store sequence as a whole (the network-bound
`build_df` in the middle releases the GIL freely). -/

/-- Program counter of one `get_data` caller: before the hit test, between
the (missed) hit test and the store, or returned with its frame and the
flag saying whether it rebuilt. -/
inductive TPC where
  | start : TPC
  | building : TPC
  | done : List Row → Bool → TPC

/-- One `get_data` caller: its `force` argument, the date key it computed,
and its program counter. -/
structure Thr where
  force : Bool
  key : String
  pc : TPC

/-- The shared state: the `_CACHE` dict plus two concurrent callers. -/
structure Sys where
  cache : CacheS
  th1 : Thr
  th2 : Thr

/-- What a rebuild by a caller holding date key `k` stores: the sanitized
pipeline output for that day (`raw` maps the day key to the `build_df`
result, fixed for the day — `build_df` is deterministic in the upstream
data, which this model holds fixed). -/
def builtFor (raw : String → List Row) (k : String) : List Row :=
  _sanitize_df (raw k)

/-- One atomic step of the two-caller system: a caller at `start` runs the
hit test (atomic read of the cache pair) and either returns the stored
frame or moves to `building`; a caller at `building` stores its freshly
built frame together with its key (atomic `dict.update`) and returns it. -/
inductive CStep (raw : String → List Row) : Sys → Sys → Prop
  | hit1 : ∀ s d, s.th1.pc = .start → s.th1.force = false →
      s.cache.key = some s.th1.key → s.cache.df = some d →
      CStep raw s { s with th1 := { s.th1 with pc := .done d false } }
  | miss1 : ∀ s, s.th1.pc = .start →
      (s.th1.force = true ∨ s.cache.key ≠ some s.th1.key ∨ s.cache.df = none) →
      CStep raw s { s with th1 := { s.th1 with pc := .building } }
  | store1 : ∀ s, s.th1.pc = .building →
      CStep raw s { s with
        cache := ⟨some s.th1.key, some (builtFor raw s.th1.key)⟩,
        th1 := { s.th1 with pc := .done (builtFor raw s.th1.key) true } }
  | hit2 : ∀ s d, s.th2.pc = .start → s.th2.force = false →
      s.cache.key = some s.th2.key → s.cache.df = some d →
      CStep raw s { s with th2 := { s.th2 with pc := .done d false } }
  | miss2 : ∀ s, s.th2.pc = .start →
      (s.th2.force = true ∨ s.cache.key ≠ some s.th2.key ∨ s.cache.df = none) →
      CStep raw s { s with th2 := { s.th2 with pc := .building } }
  | store2 : ∀ s, s.th2.pc = .building →
      CStep raw s { s with
        cache := ⟨some s.th2.key, some (builtFor raw s.th2.key)⟩,
        th2 := { s.th2 with pc := .done (builtFor raw s.th2.key) true } }

/-- Reachability under interleaved atomic steps. -/
def CReach (raw : String → List Row) : Sys → Sys → Prop :=
  Relation.ReflTransGen (CStep raw)

/-- A caller's return is flagged as having rebuilt. -/
def didRebuild (t : Thr) : Prop :=
  ∃ d, t.pc = .done d true

/-- The stored pair is internally consistent: whatever frame is stored
under a key is the sanitized pipeline output for that key. -/
def cacheConsistent (raw : String → List Row) (c : CacheS) : Prop :=
  ∀ k d, c.key = some k → c.df = some d → d = builtFor raw k

/-- A finished caller holds the full, sanitized dataset for its own key —
never a partially built table. -/
def threadConsistent (raw : String → List Row) (t : Thr) : Prop :=
  ∀ d b, t.pc = .done d b → d = builtFor raw t.key

/-! ### Canonical-schema predicate for sanitized frames -/

/-- A row in the canonical post-sanitization shape: the identifier is
missing or an all-digit string of width at least 7, the date is missing
or a calendar date, and the four numeric columns are missing or numeric. -/
def CanonRow (r : Row) : Prop :=
  (r.cd_mun = PyVal.none_ ∨
    ∃ s, r.cd_mun = PyVal.str s ∧ s.data ≠ [] ∧
      s.data.all Char.isDigit = true ∧ 7 ≤ s.length) ∧
  (r.data = PyVal.none_ ∨ ∃ d, r.data = PyVal.date d) ∧
  (r.lat = PyVal.none_ ∨ ∃ q, r.lat = PyVal.num q) ∧
  (r.lon = PyVal.none_ ∨ ∃ q, r.lon = PyVal.num q) ∧
  (r.rhmin = PyVal.none_ ∨ ∃ q, r.rhmin = PyVal.num q) ∧
  (r.rhmax = PyVal.none_ ∨ ∃ q, r.rhmax = PyVal.num q)

/-- Schema validity of a dataset: every row is canonical. -/
def SchemaValid (df : List Row) : Prop := ∀ r ∈ df, CanonRow r

/-! ### Concrete inputs used to instantiate the claims -/

/-- 19.5, built in normal form so the kernel can evaluate comparisons. -/
def q19x : ℚ := ⟨39, 2, by norm_num, by norm_num⟩

/-- 29.5. -/
def q29x : ℚ := ⟨59, 2, by norm_num, by norm_num⟩

/-- 40.5. -/
def q40x : ℚ := ⟨81, 2, by norm_num, by norm_num⟩

/-- Reference rows whose identifiers are digit-free resp. eight digits
long, both with coordinates present. -/
def attrRowsX : List Ent :=
  [{ cd_mun := .str "abc", nm_mun := .str "Alfa", sigla_uf := .str "AA",
     lat := .num 1, lon := .num 2 },
   { cd_mun := .str "12345678", nm_mun := .str "Beta", sigla_uf := .str "BB",
     lat := .num 3, lon := .num 4 }]

/-- A per-day record whose first alias key holds an unparseable value and
whose second alias key holds 30. -/
def recX : Json := .obj [("umidade_min", .str "abc"), ("ur_min", .num 30)]

/-- A date-keyed forecast body around `recX`. -/
def bodyX : Json := .obj [("2024-01-01", recX)]

/-- A one-entity job list whose fetch raised. -/
def jobsX : List (Ent × Except Unit DayMap) :=
  [({ cd_mun := .str "5300108", nm_mun := .str "Bras", sigla_uf := .str "DF",
      lat := .num 1, lon := .num 2 }, .error ())]

/-- A pipeline result map for the concurrency model: every day builds the
empty frame. -/
def rawX : String → List Row := fun _ => []

/-- A caller with `force=false` holding the day key `"2024-01-01"`. -/
def thrX : Thr := { force := false, key := "2024-01-01", pc := .start }

/-- Both callers at their hit test over the empty cache. -/
def sysX0 : Sys := { cache := ⟨none, none⟩, th1 := thrX, th2 := thrX }

/-- State after both callers missed. -/
def sysX1 : Sys :=
  { cache := ⟨none, none⟩,
    th1 := { thrX with pc := .building }, th2 := { thrX with pc := .building } }

/-- State after the first caller stored. -/
def sysX2 : Sys :=
  { cache := ⟨some "2024-01-01", some []⟩,
    th1 := { thrX with pc := .done [] true },
    th2 := { thrX with pc := .building } }

/-- State after both callers stored: both rebuilt. -/
def sysX3 : Sys :=
  { cache := ⟨some "2024-01-01", some []⟩,
    th1 := { thrX with pc := .done [] true },
    th2 := { thrX with pc := .done [] true } }

/-! ## C4 — the classifier is total, deterministic, and bins as tabled -/

/-- C4: `classificar_rhmin` is total and deterministic (it is a function
into the six ordered classes plus the undefined result `none`); the
boundary values 12, 19, 20, 29, 30, 40, 41, 60 map to the tabled classes;
the open gaps (19,20), (29,30), (40,41), all negative values, and the
unknown input all map to undefined, never an error. -/
theorem classificar_rhmin_total_boundaries_gaps :
    (∀ v : Option ℚ, classificar_rhmin v = none ∨
      ∃ c, classificar_rhmin v = some c ∧ c ∈ CLASS_ORDER) ∧
    classificar_rhmin (some 60) = some "Quase ideal (41–60%)" ∧
    classificar_rhmin (some 41) = some "Quase ideal (41–60%)" ∧
    classificar_rhmin (some 40) = some "Observação (30–40%)" ∧
    classificar_rhmin (some 30) = some "Observação (30–40%)" ∧
    classificar_rhmin (some 29) = some "Atenção (20–29%)" ∧
    classificar_rhmin (some 20) = some "Atenção (20–29%)" ∧
    classificar_rhmin (some 19) = some "Caso de alerta (12–19%)" ∧
    classificar_rhmin (some 12) = some "Caso de alerta (12–19%)" ∧
    (∀ v : ℚ, 19 < v → v < 20 → classificar_rhmin (some v) = none) ∧
    (∀ v : ℚ, 29 < v → v < 30 → classificar_rhmin (some v) = none) ∧
    (∀ v : ℚ, 40 < v → v < 41 → classificar_rhmin (some v) = none) ∧
    (∀ v : ℚ, v < 0 → classificar_rhmin (some v) = none) ∧
    classificar_rhmin none = none := by
  refine ⟨?_, by decide, by decide, by decide, by decide, by decide, by decide,
    by decide, by decide, ?_, ?_, ?_, ?_, rfl⟩
  · intro v
    match v with
    | none => exact Or.inl rfl
    | some v =>
      simp only [classificar_rhmin, CLASS_ORDER]
      split_ifs <;> simp
  · intro v h1 h2
    simp only [classificar_rhmin]
    split_ifs <;> first | rfl | linarith
  · intro v h1 h2
    simp only [classificar_rhmin]
    split_ifs <;> first | rfl | linarith
  · intro v h1 h2
    simp only [classificar_rhmin]
    split_ifs <;> first | rfl | linarith
  · intro v h1
    simp only [classificar_rhmin]
    split_ifs <;> first | rfl | linarith

/-- C4 witness: the gap and negative hypotheses discharged at 19.5, 29.5,
40.5 and −1. -/
theorem classificar_rhmin_total_boundaries_gaps_witness :
    classificar_rhmin (some q19x) = none ∧
    classificar_rhmin (some q29x) = none ∧
    classificar_rhmin (some q40x) = none ∧
    classificar_rhmin (some (-1)) = none :=
  ⟨classificar_rhmin_total_boundaries_gaps.2.2.2.2.2.2.2.2.2.1 q19x
      (by decide) (by decide),
   classificar_rhmin_total_boundaries_gaps.2.2.2.2.2.2.2.2.2.2.1 q29x
      (by decide) (by decide),
   classificar_rhmin_total_boundaries_gaps.2.2.2.2.2.2.2.2.2.2.2.1 q40x
      (by decide) (by decide),
   classificar_rhmin_total_boundaries_gaps.2.2.2.2.2.2.2.2.2.2.2.2.1 (-1)
      (by decide)⟩

/-! ## C1 — what the forecast client converts to the empty result -/

/-- C1 counterexample: the claim says every network failure (timeout,
connection error) is converted to the empty result and never propagates
past `_fetch_one`; but `requests.get` sits outside any `try`, so a raised
network error leaves `_fetch_one` as an exception, not as a result. -/
theorem fetch_one_claim_counterexample :
    ¬ ∃ m, _fetch_one "3550308" HttpOutcome.raise = Except.ok m := by
  intro ⟨m, h⟩
  simp [_fetch_one] at h

/-- C1 amended: once `requests.get` returns a response, `_fetch_one` never
raises — a non-200 status and an undecodable body yield the empty result
and a decoded body is normalized — but a raised network error (timeout,
connection error) propagates to the caller, where `build_df` catches it
around `fut.result()`. -/
theorem fetch_one_failure_handling :
    (∀ ibge, _fetch_one ibge HttpOutcome.raise = .error ()) ∧
    (∀ ibge status body, ∃ m,
        _fetch_one ibge (HttpOutcome.resp status body) = .ok m) ∧
    (∀ ibge status body, status ≠ 200 →
        _fetch_one ibge (HttpOutcome.resp status body) = .ok []) ∧
    (∀ ibge, _fetch_one ibge (HttpOutcome.resp 200 none) = .ok []) ∧
    (∀ ibge j, _fetch_one ibge (HttpOutcome.resp 200 (some j))
        = .ok (_parse_inmet_resp ibge j)) := by
  refine ⟨fun ibge => rfl, fun ibge status body => ?_, fun ibge status body h => ?_,
    fun ibge => rfl, fun ibge j => rfl⟩
  · by_cases h : status = 200
    · subst h
      cases body with
      | none => exact ⟨[], rfl⟩
      | some j => exact ⟨_parse_inmet_resp ibge j, rfl⟩
    · exact ⟨[], by simp [_fetch_one, h]⟩
  · simp [_fetch_one, h]

/-- C1 amended witness: the response cases at a 500 status, an
undecodable body and a decoded body. -/
theorem fetch_one_failure_handling_witness :
    (∃ m, _fetch_one "3550308" (HttpOutcome.resp 500 none) = Except.ok m) ∧
    _fetch_one "3550308" (HttpOutcome.resp 500 none) = .ok [] ∧
    _fetch_one "3550308" (HttpOutcome.resp 200 none) = .ok [] ∧
    _fetch_one "3550308" (HttpOutcome.resp 200 (some bodyX))
      = .ok (_parse_inmet_resp "3550308" bodyX) :=
  ⟨fetch_one_failure_handling.2.1 "3550308" 500 none,
   fetch_one_failure_handling.2.2.1 "3550308" 500 none (by decide),
   fetch_one_failure_handling.2.2.2.1 "3550308",
   fetch_one_failure_handling.2.2.2.2 "3550308" bodyX⟩

/-! ## C3 / C10 — collector completeness and the never-populated RHmax -/

/-- Appending through a fold is concatenation of the per-element blocks. -/
theorem foldl_append_eq_flatMap {α β : Type} (f : α → List β) :
    ∀ (l : List α) (init : List β),
      l.foldl (fun acc x => acc ++ f x) init = init ++ l.flatMap f
  | [], init => by simp
  | x :: l, init => by
    simp [List.foldl_cons, foldl_append_eq_flatMap f l (init ++ f x)]

/-- The five target dates, written out. -/
theorem target_days_eq (today : ℤ) :
    target_days today = [today, today + 1, today + 2, today + 3, today + 4] := by
  simp [target_days, List.range_succ]

/-- Each entity contributes exactly five rows, one per target date. -/
theorem entity_rows_length (today : ℤ) (e : Ent) (res : Except Unit DayMap) :
    (entity_rows today e res).length = 5 := by
  rw [entity_rows.eq_def, target_days_eq]
  cases res <;> rfl

/-- The collector output is the concatenation of per-entity blocks. -/
theorem build_df_eq_flatMap (today : ℤ) (jobs : List (Ent × Except Unit DayMap)) :
    build_df today jobs = jobs.flatMap (fun j => entity_rows today j.1 j.2) := by
  simpa using foldl_append_eq_flatMap (fun j => entity_rows today j.1 j.2) jobs []

/-- C3: one run of `build_df` over any completion order of the per-entity
jobs yields exactly N×5 rows; the output decomposes into independent
per-entity blocks, so no entity's failure aborts the run or affects other
entities' rows; each block carries the five target dates (today through
today+4, fixed once per run) in order; `RHmin` is the per-date lookup with
NaN for absent dates; and an entity whose fetch raised produces the same
five all-NaN rows as an empty mapping. -/
theorem build_df_completeness (today : ℤ) (jobs : List (Ent × Except Unit DayMap)) :
    (build_df today jobs).length = 5 * jobs.length ∧
    build_df today jobs = jobs.flatMap (fun j => entity_rows today j.1 j.2) ∧
    (∀ e res, (entity_rows today e res).map Row.data
        = (target_days today).map PyVal.date) ∧
    (∀ e m, (entity_rows today e (.ok m)).map Row.rhmin
        = (target_days today).map (fun d =>
            match dayGet m d with
            | some q => PyVal.num q
            | none => PyVal.none_)) ∧
    (∀ e u, entity_rows today e (.error u) = entity_rows today e (.ok [])) := by
  refine ⟨?_, build_df_eq_flatMap today jobs, ?_, ?_, fun e u => rfl⟩
  · rw [build_df_eq_flatMap today jobs, List.length_flatMap]
    induction jobs with
    | nil => simp
    | cons j l ih =>
      simp only [List.map_cons, List.sum_cons, List.length_cons, Function.comp_apply,
        entity_rows_length, ih]
      ring
  · intro e res
    simp [entity_rows]
  · intro e m
    simp [entity_rows]

/-- C10: every row the real collector emits has an unknown (NaN)
`RHmax` — the pipeline never populates that column from the endpoint. -/
theorem build_df_rhmax_always_nan (today : ℤ)
    (jobs : List (Ent × Except Unit DayMap)) :
    ∀ r ∈ build_df today jobs, r.rhmax = PyVal.none_ := by
  intro r hr
  rw [build_df_eq_flatMap today jobs] at hr
  obtain ⟨j, _, hj⟩ := List.mem_flatMap.mp hr
  simp only [entity_rows, target_days, List.mem_map] at hj
  obtain ⟨d, _, rfl⟩ := hj
  rfl

/-- C10 witness: the first row of a one-entity run whose fetch raised. -/
theorem build_df_rhmax_always_nan_witness :
    ({ cd_mun := .str "5300108", nm_mun := .str "Bras", sigla_uf := .str "DF",
       lat := .num 1, lon := .num 2, data := .date 0,
       rhmin := PyVal.none_, rhmax := PyVal.none_ } : Row).rhmax = PyVal.none_ :=
  build_df_rhmax_always_nan 0 jobsX _ (by decide)

/-! ## C5 — daily-cache hit and forced-rebuild behaviour -/

/-- C5: with the stored key equal to the computed day key and a dataset
stored, `get_data(force=false)` returns the stored dataset unchanged, does
not touch the cache, and does not run the rebuild path — for every possible
pipeline outcome, i.e. the collection pipeline is never invoked; and
`get_data(force=true)` runs the rebuild path and replaces the stored pair
even though the key matches. -/
theorem get_data_cache_correct (key : String) (today : ℤ)
    (pipe : Except PyErr (List Row)) (c : CacheS) (df : List Row)
    (h1 : c.key = some key) (h2 : c.df = some df) :
    get_data false key today pipe c = .ok (df, c, false) ∧
    (∀ df0, get_data true key today (.ok df0) c
        = .ok (_sanitize_df df0,
               { key := some key, df := some (_sanitize_df df0) }, true)) := by
  constructor
  · rw [get_data]
    rw [dif_pos ⟨rfl, h1, by rw [h2]; rfl⟩]
    simp [h2]
  · intro df0
    rw [get_data]
    rw [dif_neg (by simp)]
    rfl

/-- C5 witness: a warm cache for day `"2024-01-01"` holding the empty
frame is returned as-is without rebuild, and a forced call rebuilds. -/
theorem get_data_cache_correct_witness :
    get_data false "2024-01-01" 0 (.ok [])
        ⟨some "2024-01-01", some []⟩
      = .ok ([], ⟨some "2024-01-01", some []⟩, false) ∧
    get_data true "2024-01-01" 0 (.ok [])
        ⟨some "2024-01-01", some []⟩
      = .ok (_sanitize_df [], { key := some "2024-01-01",
                                df := some (_sanitize_df []) }, true) :=
  ⟨(get_data_cache_correct "2024-01-01" 0 (.ok []) _ [] rfl rfl).1,
   (get_data_cache_correct "2024-01-01" 0 (.ok []) _ [] rfl rfl).2 []⟩

/-! ## Cell-level facts about the sanitizer's coercions -/

/-- `digitChar10` always produces a decimal digit character. -/
theorem digitChar10_isDigit (k : ℕ) : (digitChar10 k).isDigit = true := by
  unfold digitChar10
  have h : k % 10 < 10 := Nat.mod_lt _ (by omega)
  generalize k % 10 = m at *
  interval_cases m <;> decide

/-- The fuel-driven printer yields a nonempty all-digit list when fuelled. -/
theorem natDigitsAux_spec :
    ∀ fuel n, n < fuel →
      natDigitsAux fuel n ≠ [] ∧ (natDigitsAux fuel n).all Char.isDigit = true := by
  intro fuel
  induction fuel with
  | zero => omega
  | succ f ih =>
    intro n hn
    rw [natDigitsAux]
    by_cases h10 : n < 10
    · simp [h10, digitChar10_isDigit]
    · have hdiv : n / 10 < f := by omega
      obtain ⟨h1, h2⟩ := ih (n / 10) hdiv
      simp only [if_neg h10]
      constructor
      · simp
      · simp [List.all_append, h2, digitChar10_isDigit]

/-- `natDigits` yields a nonempty all-digit list. -/
theorem natDigits_spec (n : ℕ) :
    natDigits n ≠ [] ∧ (natDigits n).all Char.isDigit = true :=
  natDigitsAux_spec (n + 1) n (by omega)

/-- A list all of whose elements pass `p` is its own `takeWhile p`. -/
theorem takeWhile_of_all {p : Char → Bool} :
    ∀ {l : List Char}, l.all p = true → l.takeWhile p = l
  | [], _ => rfl
  | a :: t, h => by
    simp only [List.all_cons, Bool.and_eq_true] at h
    simp [List.takeWhile_cons, h.1, takeWhile_of_all h.2]

/-- A list all of whose elements pass `p` survives `dropWhile (!p ·)`. -/
theorem dropWhile_neg_of_all {p : Char → Bool} {l : List Char}
    (h : l.all p = true) : l.dropWhile (fun c => !p c) = l := by
  cases l with
  | nil => rfl
  | cons a t =>
    simp only [List.all_cons, Bool.and_eq_true] at h
    simp [List.dropWhile_cons, h.1]

/-- On a nonempty all-digit string, the digit-run extraction is the
identity. -/
theorem firstDigitRun_of_digits {s : String} (h1 : s.data ≠ [])
    (h2 : s.data.all Char.isDigit = true) : firstDigitRun s = some s := by
  unfold firstDigitRun
  rw [dropWhile_neg_of_all h2, takeWhile_of_all h2]
  rw [if_neg h1]

/-- A successful digit-run extraction yields a nonempty all-digit string. -/
theorem firstDigitRun_spec {s r : String} (h : firstDigitRun s = some r) :
    r.data ≠ [] ∧ r.data.all Char.isDigit = true := by
  unfold firstDigitRun at h
  by_cases hl : (s.data.dropWhile (fun c => !c.isDigit)).takeWhile Char.isDigit = []
  · rw [if_pos hl] at h
    exact absurd h (by simp)
  · rw [if_neg hl] at h
    injection h with h
    subst h
    exact ⟨by simpa using hl, List.all_takeWhile⟩

/-- Padding a nonempty all-digit string to width 7 yields a nonempty
all-digit string of length at least 7. -/
theorem zfill_spec {s : String} (h1 : s.data ≠ [])
    (h2 : s.data.all Char.isDigit = true) :
    (zfill 7 s).data ≠ [] ∧ (zfill 7 s).data.all Char.isDigit = true ∧
      7 ≤ (zfill 7 s).length := by
  unfold zfill
  by_cases hlen : s.length < 7
  · rw [if_pos hlen]
    have hdata : (String.mk (List.replicate (7 - s.length) '0') ++ s).data
        = List.replicate (7 - s.length) '0' ++ s.data := String.data_append _ _
    refine ⟨?_, ?_, ?_⟩
    · rw [hdata]
      simp [h1]
    · rw [hdata]
      simp only [List.all_append, h2, Bool.and_true]
      simp [List.all_replicate]
    · show 7 ≤ (String.mk (List.replicate (7 - s.length) '0') ++ s).data.length
      rw [hdata]
      have : s.length = s.data.length := rfl
      simp only [List.length_append, List.length_replicate]
      omega
  · rw [if_neg hlen]
    exact ⟨h1, h2, by omega⟩

/-- Every normalized identifier cell is missing or an all-digit string of
width at least 7. -/
theorem sanCdCell_canon (x : PyVal) :
    sanCdCell x = PyVal.none_ ∨
      ∃ s, sanCdCell x = PyVal.str s ∧ s.data ≠ [] ∧
        s.data.all Char.isDigit = true ∧ 7 ≤ s.length := by
  have hrun : ∀ r : String, r.data ≠ [] → r.data.all Char.isDigit = true →
      ∃ s, PyVal.str (zfill 7 r) = PyVal.str s ∧ s.data ≠ [] ∧
        s.data.all Char.isDigit = true ∧ 7 ≤ s.length := by
    intro r hr1 hr2
    obtain ⟨a, b, c⟩ := zfill_spec hr1 hr2
    exact ⟨zfill 7 r, rfl, a, b, c⟩
  cases x with
  | none_ => exact Or.inl rfl
  | num q =>
    right
    exact hrun _ (natDigits_spec _).1 (natDigits_spec _).2
  | date d =>
    right
    exact hrun _ (natDigits_spec _).1 (natDigits_spec _).2
  | str s =>
    cases hfr : firstDigitRun s with
    | none =>
      left
      simp [sanCdCell, extractDigitsCell, hfr]
    | some r =>
      right
      obtain ⟨h1, h2⟩ := firstDigitRun_spec hfr
      obtain ⟨a, b, c⟩ := zfill_spec h1 h2
      exact ⟨zfill 7 r, by simp [sanCdCell, extractDigitsCell, hfr], a, b, c⟩

/-- The identifier coercion is idempotent. -/
theorem sanCdCell_idem (x : PyVal) : sanCdCell (sanCdCell x) = sanCdCell x := by
  rcases sanCdCell_canon x with h | ⟨s, h, h1, h2, h3⟩
  · rw [h]
    rfl
  · rw [h]
    have hfr := firstDigitRun_of_digits h1 h2
    simp [sanCdCell, extractDigitsCell, hfr, zfill, show ¬ s.length < 7 by omega]

/-- Every coerced date cell is missing or a date. -/
theorem sanDateCell_canon (x : PyVal) :
    sanDateCell x = PyVal.none_ ∨ ∃ d, sanDateCell x = PyVal.date d := by
  cases x with
  | none_ => exact Or.inl rfl
  | date d => exact Or.inr ⟨d, rfl⟩
  | num q => exact Or.inr ⟨_, rfl⟩
  | str s =>
    cases hp : parseDateStr s with
    | none => exact Or.inl (by simp [sanDateCell, hp])
    | some d => exact Or.inr ⟨d, by simp [sanDateCell, hp]⟩

/-- The date coercion is idempotent. -/
theorem sanDateCell_idem (x : PyVal) :
    sanDateCell (sanDateCell x) = sanDateCell x := by
  rcases sanDateCell_canon x with h | ⟨d, h⟩ <;> rw [h] <;> rfl

/-- Every coerced numeric cell is missing or numeric. -/
theorem sanNumCell_canon (x : PyVal) :
    sanNumCell x = PyVal.none_ ∨ ∃ q, sanNumCell x = PyVal.num q := by
  cases x with
  | none_ => exact Or.inl rfl
  | num q => exact Or.inr ⟨q, rfl⟩
  | date d => exact Or.inl rfl
  | str s =>
    cases hp : parseNumStr s with
    | none => exact Or.inl (by simp [sanNumCell, hp])
    | some q => exact Or.inr ⟨q, by simp [sanNumCell, hp]⟩

/-- The numeric coercion is idempotent. -/
theorem sanNumCell_idem (x : PyVal) :
    sanNumCell (sanNumCell x) = sanNumCell x := by
  rcases sanNumCell_canon x with h | ⟨q, h⟩ <;> rw [h] <;> rfl

/-- Row coercion is idempotent. -/
theorem sanRow_idem (r : Row) : sanRow (sanRow r) = sanRow r := by
  unfold sanRow
  simp only [sanCdCell_idem, sanDateCell_idem, sanNumCell_idem]

/-- Every coerced row is canonical. -/
theorem sanRow_canon (r : Row) : CanonRow (sanRow r) :=
  ⟨sanCdCell_canon r.cd_mun, sanDateCell_canon r.data, sanNumCell_canon r.lat,
   sanNumCell_canon r.lon, sanNumCell_canon r.rhmin, sanNumCell_canon r.rhmax⟩

/-- Mapping a function that fixes every member is the identity. -/
theorem map_eq_self_of_mem {α : Type} {f : α → α} :
    ∀ {l : List α}, (∀ x ∈ l, f x = x) → l.map f = l
  | [], _ => rfl
  | a :: t, h => by
    rw [List.map_cons, h a (by simp), map_eq_self_of_mem (fun x hx => h x (by simp [hx]))]

/-- The sanitizer always emits a schema-valid frame. -/
theorem sanitize_schema_valid (df : List Row) : SchemaValid (_sanitize_df df) := by
  intro r hr
  unfold _sanitize_df at hr
  rw [List.mem_insertionSort] at hr
  obtain ⟨y, _, rfl⟩ := List.mem_map.mp hr
  exact sanRow_canon y

/-- The sanitizer preserves the row count. -/
theorem sanitize_length (df : List Row) :
    (_sanitize_df df).length = df.length := by
  unfold _sanitize_df
  rw [List.length_insertionSort, List.length_map]

/-! ## C6 — sanitizing sanitized data is the identity -/

/-- C6: the sanitizer is idempotent — applied to any frame that is already
its own output, it returns an equal frame: same schema, same row order,
same values. (The `sort_values` step is modelled as the deterministic
stable sort on the (identifier, date) key.) -/
theorem sanitize_df_idem (df : List Row) :
    _sanitize_df (_sanitize_df df) = _sanitize_df df := by
  unfold _sanitize_df
  have hmap : (List.insertionSort rowLE (df.map sanRow)).map sanRow
      = List.insertionSort rowLE (df.map sanRow) := by
    apply map_eq_self_of_mem
    intro x hx
    rw [List.mem_insertionSort] at hx
    obtain ⟨y, _, rfl⟩ := List.mem_map.mp hx
    exact sanRow_idem y
  rw [hmap]
  exact (List.sorted_insertionSort rowLE _).insertionSort_eq

/-! ## C2 — what `get_data` catches, and what escapes it -/

/-- C2 counterexample: the claim says `get_data` catches every error the
pipeline raises, including the loader's fatal errors for a missing
municipality file; but those are `raise SystemExit(...)`, which
`except Exception` does not catch, so the error propagates out of
`get_data` and no dataset is returned. -/
theorem get_data_fatal_counterexample :
    get_data false "2024-01-01" 0
        (.error (.systemExit "arquivo de municípios ausente")) ⟨none, none⟩
      = .error (.systemExit "arquivo de municípios ausente") ∧
    ¬ ∃ df c b, get_data false "2024-01-01" 0
        (.error (.systemExit "arquivo de municípios ausente")) ⟨none, none⟩
      = .ok (df, c, b) := by
  constructor
  · rfl
  · intro ⟨df, c, b, h⟩
    rw [show get_data false "2024-01-01" 0
        (.error (.systemExit "arquivo de municípios ausente")) ⟨none, none⟩
      = .error (.systemExit "arquivo de municípios ausente") from rfl] at h
    exact Except.noConfusion h

/-- C2 amended: whenever the rebuild path runs, any `Exception`-class
error from the collection pipeline (network stack, pandas, the all-NaN
path, ...) is caught and `get_data` still returns a non-empty,
schema-valid dataset — the sanitized demo frame — and stores it; but the
loader's `SystemExit` fatal errors (missing municipality file, missing
latitude/longitude columns) are not `Exception`s and propagate. -/
theorem get_data_fallback_amended (force : Bool) (key : String) (today : ℤ)
    (c : CacheS) (m : String)
    (hmiss : ¬(force = false ∧ c.key = some key ∧ c.df.isSome = true)) :
    get_data force key today (.error (.exc m)) c
      = .ok (_sanitize_df (_demo_df today),
             { key := some key, df := some (_sanitize_df (_demo_df today)) },
             true) ∧
    _sanitize_df (_demo_df today) ≠ [] ∧
    SchemaValid (_sanitize_df (_demo_df today)) ∧
    get_data force key today (.error (.systemExit m)) c
      = .error (.systemExit m) := by
  refine ⟨?_, ?_, sanitize_schema_valid _, ?_⟩
  · rw [get_data, dif_neg hmiss]
    rfl
  · have hlen : (_sanitize_df (_demo_df today)).length = 15 := by
      rw [sanitize_length]
      simp [_demo_df]
    intro hnil
    rw [hnil] at hlen
    simp at hlen
  · rw [get_data, dif_neg hmiss]
    rfl

/-- C2 amended witness: a cold cache, an `Exception` pipeline failure at
day zero, and the sibling `SystemExit` propagation. -/
theorem get_data_fallback_amended_witness :
    get_data false "2024-01-01" 0 (.error (.exc "HTTPSConnectionPool"))
        ⟨none, none⟩
      = .ok (_sanitize_df (_demo_df 0),
             { key := some "2024-01-01", df := some (_sanitize_df (_demo_df 0)) },
             true) ∧
    _sanitize_df (_demo_df 0) ≠ [] ∧
    SchemaValid (_sanitize_df (_demo_df 0)) ∧
    get_data false "2024-01-01" 0 (.error (.systemExit "HTTPSConnectionPool"))
        ⟨none, none⟩
      = .error (.systemExit "HTTPSConnectionPool") :=
  get_data_fallback_amended false "2024-01-01" 0 ⟨none, none⟩
    "HTTPSConnectionPool" (by simp)

/-! ## C7 — what the reference data loader really emits -/

/-- Rows surviving first-wins deduplication come from the input, carry
pairwise distinct identifier cells, and avoid the already-seen ones. -/
theorem dedupByCdAux_spec :
    ∀ (l : List Ent) (seen : List PyVal),
      (∀ x ∈ dedupByCdAux seen l, x ∈ l ∧ x.cd_mun ∉ seen) ∧
      ((dedupByCdAux seen l).map Ent.cd_mun).Nodup
  | [], seen => by simp [dedupByCdAux]
  | r :: rest, seen => by
    rw [dedupByCdAux]
    by_cases hmem : r.cd_mun ∈ seen
    · rw [if_pos hmem]
      obtain ⟨ha, hb⟩ := dedupByCdAux_spec rest seen
      exact ⟨fun x hx => ⟨List.mem_cons_of_mem r (ha x hx).1, (ha x hx).2⟩, hb⟩
    · rw [if_neg hmem]
      obtain ⟨ha, hb⟩ := dedupByCdAux_spec rest (r.cd_mun :: seen)
      refine ⟨?_, ?_⟩
      · intro x hx
        rcases List.mem_cons.mp hx with rfl | hx2
        · exact ⟨List.mem_cons_self _ _, hmem⟩
        · exact ⟨List.mem_cons_of_mem r (ha x hx2).1,
            fun hs => (ha x hx2).2 (List.mem_cons_of_mem _ hs)⟩
      · rw [List.map_cons, List.nodup_cons]
        refine ⟨?_, hb⟩
        intro hcd
        obtain ⟨x, hx, hxcd⟩ := List.mem_map.mp hcd
        exact (ha x hx).2 (hxcd ▸ List.mem_cons_self _ _)

/-- C7 counterexample: a digit-free identifier is *not* dropped — it
survives with a missing identifier cell — and an eight-digit identifier
stays eight characters wide, so the output identifiers are not all
7-character digit strings as claimed. -/
theorem load_attr_claim_counterexample :
    (load_attr_municipios attrRowsX).map Ent.cd_mun
      = [PyVal.none_, PyVal.str "12345678"] ∧
    ¬ ∀ r ∈ load_attr_municipios attrRowsX,
        ∃ s, r.cd_mun = PyVal.str s ∧ s.length = 7 ∧
          s.data.all Char.isDigit = true := by
  refine ⟨by decide, ?_⟩
  intro h
  have h1 : Ent.mk PyVal.none_ (.str "Alfa") (.str "AA") (.num 1) (.num 2)
      ∈ load_attr_municipios attrRowsX := by decide
  obtain ⟨s, hs, -⟩ := h _ h1
  exact PyVal.noConfusion hs

/-- C7 amended: the loader zero-pads the leading digit run of each
identifier to width *at least* 7 (exactly 7 when the run is at most 7
digits long, wider runs kept whole); rows whose identifier has no digits
are *kept* with a missing identifier cell (and deduplicated as one group)
rather than dropped; rows missing latitude or longitude are dropped; and
deduplication by identifier keeps the first occurrence, so the output
identifier cells are pairwise distinct. -/
theorem load_attr_identifier_normalization (rows : List Ent) :
    (∀ r ∈ load_attr_municipios rows,
        (r.lat ≠ PyVal.none_ ∧ r.lon ≠ PyVal.none_) ∧
        (r.cd_mun = PyVal.none_ ∨
          ∃ s, r.cd_mun = PyVal.str s ∧ s.data ≠ [] ∧
            s.data.all Char.isDigit = true ∧ 7 ≤ s.length)) ∧
    ((load_attr_municipios rows).map Ent.cd_mun).Nodup := by
  unfold load_attr_municipios
  constructor
  · intro r hr
    obtain ⟨hmem, -⟩ := (dedupByCdAux_spec _ []).1 r hr
    rw [List.mem_filter] at hmem
    obtain ⟨hmap, hpred⟩ := hmem
    constructor
    · simp only [Bool.and_eq_true, decide_eq_true_eq] at hpred
      exact hpred
    · obtain ⟨y, -, rfl⟩ := List.mem_map.mp hmap
      exact sanCdCell_canon y.cd_mun
  · exact (dedupByCdAux_spec _ []).2

/-- C7 amended witness: the eight-digit row of `attrRowsX` instantiates
the per-row conclusions; the full output has pairwise distinct
identifiers. -/
theorem load_attr_identifier_normalization_witness :
    ((PyVal.num 3 ≠ PyVal.none_ ∧ PyVal.num 4 ≠ PyVal.none_) ∧
     (PyVal.str "12345678" = PyVal.none_ ∨
       ∃ s, PyVal.str "12345678" = PyVal.str s ∧ s.data ≠ [] ∧
         s.data.all Char.isDigit = true ∧ 7 ≤ s.length)) ∧
    ((load_attr_municipios attrRowsX).map Ent.cd_mun).Nodup :=
  ⟨(load_attr_identifier_normalization attrRowsX).1
     { cd_mun := .str "12345678", nm_mun := .str "Beta", sigla_uf := .str "BB",
       lat := .num 3, lon := .num 4 } (by decide),
   (load_attr_identifier_normalization attrRowsX).2⟩

/-! ## C8 — normalizer shapes, alias scan, and unparseable input -/

/-- Looking up the date just inserted yields the inserted value. -/
theorem dayGet_insert_self (d : ℤ) (v : Option ℚ) (m : DayMap) :
    dayGet (dictInsertDate d v m) d = v := by
  unfold dictInsertDate dayGet
  by_cases h : m.any (fun p => p.1 = d)
  · rw [if_pos h]
    induction m with
    | nil => simp at h
    | cons p t ih =>
      by_cases hp : p.1 = d
      · simp [List.find?_cons, hp]
      · have ht : t.any (fun p => p.1 = d) = true := by
          rcases List.any_eq_true.mp h with ⟨x, hx, hxd⟩
          rcases List.mem_cons.mp hx with rfl | hx2
          · exact absurd (by simpa using hxd) hp
          · exact List.any_eq_true.mpr ⟨x, hx2, hxd⟩
        simpa [List.find?_cons, hp] using ih ht
  · rw [if_neg h]
    have hnone : (m.find? fun p => decide (p.1 = d)) = none := by
      rw [List.find?_eq_none]
      intro x hx hxd
      exact h (List.any_eq_true.mpr ⟨x, hx, hxd⟩)
    rw [List.find?_append, hnone]
    simp

/-- Replacing the value stored under date `d` does not change `find?` at
another date. -/
theorem find_repl_other (d : ℤ) (v : Option ℚ) (d' : ℤ) (h : d' ≠ d) :
    ∀ m : DayMap,
      (m.map (fun p => if p.1 = d then (d, v) else p)).find?
          (fun p => decide (p.1 = d'))
        = m.find? (fun p => decide (p.1 = d'))
  | [] => rfl
  | p :: t => by
    rw [List.map_cons, List.find?_cons, List.find?_cons]
    by_cases hp : p.1 = d
    · rw [if_pos hp]
      have h1 : (decide ((d, v).1 = d')) = false := by simp [Ne.symm h]
      have h2 : (decide (p.1 = d')) = false := by simp [hp, Ne.symm h]
      rw [h1, h2]
      exact find_repl_other d v d' h t
    · rw [if_neg hp]
      by_cases hd : p.1 = d'
      · simp [hd]
      · simp only [hd, decide_False]
        exact find_repl_other d v d' h t

/-- Inserting under one date leaves other dates' lookups unchanged. -/
theorem dayGet_insert_other (d : ℤ) (v : Option ℚ) (m : DayMap) (d' : ℤ)
    (h : d' ≠ d) : dayGet (dictInsertDate d v m) d' = dayGet m d' := by
  unfold dictInsertDate dayGet
  by_cases hany : m.any (fun p => p.1 = d)
  · rw [if_pos hany, find_repl_other d v d' h m]
  · rw [if_neg hany, List.find?_append]
    have hlast : (List.find? (fun p => decide (p.1 = d')) [(d, v)]) = none := by
      simp [List.find?_cons, Ne.symm h]
    rw [hlast]
    simp

/-- Folding records none of whose keys parse to date `d` leaves the
accumulated value at `d` unchanged. -/
theorem collect_fold_no_date :
    ∀ (l : List (String × Json)) (acc : DayMap) (d : ℤ),
      (∀ kv ∈ l, parseDateStr kv.1 ≠ some d) →
      dayGet (l.foldl (fun acc kv =>
        match parseDateStr kv.1 with
        | none => acc
        | some d2 => dictInsertDate d2 (_get_min kv.2) acc) acc) d = dayGet acc d
  | [], acc, d, _ => rfl
  | kv :: t, acc, d, h => by
    rw [List.foldl_cons]
    cases hp : parseDateStr kv.1 with
    | none =>
      exact collect_fold_no_date t acc d (fun x hx => h x (List.mem_cons_of_mem _ hx))
    | some d2 =>
      have hne : d ≠ d2 := by
        intro heq
        exact h kv (List.mem_cons_self _ _) (by rw [hp, heq])
      rw [collect_fold_no_date t _ d (fun x hx => h x (List.mem_cons_of_mem _ hx))]
      exact dayGet_insert_other d2 (_get_min kv.2) acc d hne

/-- Folding a record list with unique keys in which `k` parses to date `d`
and no other key does: the accumulated value at `d` is `_get_min` of `k`'s
record. -/
theorem collect_fold_hit :
    ∀ (l : List (String × Json)) (acc : DayMap) (k : String) (v : Json) (d : ℤ),
      (l.map Prod.fst).Nodup → (k, v) ∈ l → parseDateStr k = some d →
      (∀ k2 v2, (k2, v2) ∈ l → k2 ≠ k → parseDateStr k2 ≠ some d) →
      dayGet (l.foldl (fun acc kv =>
        match parseDateStr kv.1 with
        | none => acc
        | some d2 => dictInsertDate d2 (_get_min kv.2) acc) acc) d = _get_min v
  | [], _, _, _, _, _, hmem, _, _ => absurd hmem (List.not_mem_nil _)
  | (k2, v2) :: t, acc, k, v, d, hnd, hmem, hk, huniq => by
    rw [List.map_cons, List.nodup_cons] at hnd
    rcases List.mem_cons.mp hmem with heq | hmem2
    · injection heq with he1 he2
      subst he1
      subst he2
      rw [List.foldl_cons, hk]
      have hrest : ∀ kv ∈ t, parseDateStr kv.1 ≠ some d := by
        intro kv hkv
        have hkne : kv.1 ≠ k := by
          intro heq2
          exact hnd.1 (heq2 ▸ List.mem_map.mpr ⟨kv, hkv, rfl⟩)
        exact huniq kv.1 kv.2 (List.mem_cons_of_mem _ (by simpa using hkv)) hkne
      rw [collect_fold_no_date t _ d hrest]
      exact dayGet_insert_self d (_get_min v) acc
    · have hk2ne : k2 ≠ k := by
        intro heq2
        exact hnd.1 (heq2 ▸ List.mem_map.mpr ⟨(k, v), hmem2, rfl⟩)
      have hk2 : parseDateStr k2 ≠ some d :=
        huniq k2 v2 (List.mem_cons_self _ _) hk2ne
      rw [List.foldl_cons]
      cases hp : parseDateStr k2 with
      | none =>
        exact collect_fold_hit t acc k v d hnd.2 hmem2 hk
          (fun k3 v3 h3 => huniq k3 v3 (List.mem_cons_of_mem _ h3))
      | some d2 =>
        exact collect_fold_hit t _ k v d hnd.2 hmem2 hk
          (fun k3 v3 h3 => huniq k3 v3 (List.mem_cons_of_mem _ h3))

/-- Records whose keys do not parse as dates can be dropped from the
collection fold without changing it, from any accumulator. -/
theorem collect_fold_filter :
    ∀ (l : List (String × Json)) (acc : DayMap),
      l.foldl (fun acc kv =>
        match parseDateStr kv.1 with
        | none => acc
        | some d2 => dictInsertDate d2 (_get_min kv.2) acc) acc
      = (l.filter (fun p => (parseDateStr p.1).isSome)).foldl (fun acc kv =>
        match parseDateStr kv.1 with
        | none => acc
        | some d2 => dictInsertDate d2 (_get_min kv.2) acc) acc
  | [], acc => rfl
  | kv :: t, acc => by
    cases hp : parseDateStr kv.1 with
    | none =>
      simpa [List.foldl_cons, List.filter_cons, hp] using collect_fold_filter t acc
    | some d =>
      simp only [List.foldl_cons, List.filter_cons, hp, Option.isSome_some, if_true]
      exact collect_fold_filter t _

/-- An alias scan over keys absent from the record finds nothing. -/
theorem scanAliases_none {kvs : List (String × Json)} :
    ∀ {al : List String}, (∀ a ∈ al, jsonLookup a kvs = none) →
      scanAliases kvs al = none
  | [], _ => rfl
  | a :: t, h => by
    rw [scanAliases, h a (List.mem_cons_self _ _)]
    exact scanAliases_none (fun x hx => h x (List.mem_cons_of_mem _ hx))

/-- A value scan over records that never yield a list-minimum finds
nothing. -/
theorem scanValuesMin_none :
    ∀ {kvs : List (String × Json)}, (∀ p ∈ kvs, tryListMin p.2 = none) →
      scanValuesMin kvs = none
  | [], _ => rfl
  | (k, v) :: t, h => by
    rw [scanValuesMin]
    rw [show tryListMin v = none from h (k, v) (List.mem_cons_self _ _)]
    exact scanValuesMin_none (fun p hp => h p (List.mem_cons_of_mem _ hp))

/-- C8 counterexample: for the record
`{"umidade_min": "abc", "ur_min": 30}` under date `"2024-01-01"`, the
normalizer does *not* read the first present alias key (whose value is
unparseable) and does *not* map the date to unknown — it skips to the
next alias and returns 30. -/
theorem parse_inmet_claim_counterexample :
    _parse_inmet_resp "3550308" bodyX = [(20240101, some 30)] ∧
    _parse_inmet_resp "3550308" bodyX ≠ [(20240101, none)] := by
  constructor
  · decide
  · decide

/-- C8 amended: the normalizer handles the two top-level shapes
identically (identifier-keyed wrapper versus direct date keys); object
keys that do not parse as dates contribute nothing; each parsing key maps
its date to `_get_min` of its record; and `_get_min` reads the first
alias key, in alias order, whose value `float(...)` accepts — an
unparseable value falls through to later aliases, a NaN-parsing value
yields unknown and stops the scan — with the hourly-list fallback tried
only after all aliases fail, and unknown only when both the alias scan
and the fallback find nothing; non-dict records yield unknown. -/
theorem parse_inmet_resp_normalization :
    (∀ ibge inner, (∀ j2, jsonLookup ibge inner ≠ some (Json.obj j2)) →
      _parse_inmet_resp ibge (Json.obj [(ibge, Json.obj inner)])
        = _parse_inmet_resp ibge (Json.obj inner)) ∧
    (∀ kvs, collectDates kvs
        = collectDates (kvs.filter (fun p => (parseDateStr p.1).isSome))) ∧
    (∀ kvs k v d, (kvs.map Prod.fst).Nodup → (k, v) ∈ kvs →
      parseDateStr k = some d →
      (∀ k2 v2, (k2, v2) ∈ kvs → k2 ≠ k → parseDateStr k2 ≠ some d) →
      dayGet (collectDates kvs) d = _get_min v) ∧
    (∀ kvs q, jsonLookup "umidade_min" kvs = some (.num q) →
      _get_min (.obj kvs) = some q) ∧
    (∀ kvs s q, jsonLookup "umidade_min" kvs = some (.str s) →
      pyFloat s = none → jsonLookup "ur_min" kvs = some (.num q) →
      _get_min (.obj kvs) = some q) ∧
    (∀ kvs s, jsonLookup "umidade_min" kvs = some (.str s) →
      pyFloat s = some none → _get_min (.obj kvs) = none) ∧
    (∀ kvs, (∀ a ∈ aliasKeys, jsonLookup a kvs = none) →
      (∀ p ∈ kvs, tryListMin p.2 = none) → _get_min (.obj kvs) = none) ∧
    (∀ s, _get_min (.str s) = none) ∧
    (∀ l, _get_min (.arr l) = none) := by
  refine ⟨?_, ?_, ?_, ?_, ?_, ?_, ?_, fun s => rfl, fun l => rfl⟩
  · intro ibge inner hno
    have houter : jsonLookup ibge [(ibge, Json.obj inner)] = some (Json.obj inner) := by
      simp [jsonLookup]
    cases hv : jsonLookup ibge inner with
    | none => simp [_parse_inmet_resp, unwrapIbge, houter, hv]
    | some v =>
      cases v with
      | obj j2 => exact absurd hv (hno j2)
      | null => simp [_parse_inmet_resp, unwrapIbge, houter, hv]
      | bool b => simp [_parse_inmet_resp, unwrapIbge, houter, hv]
      | num q => simp [_parse_inmet_resp, unwrapIbge, houter, hv]
      | str s => simp [_parse_inmet_resp, unwrapIbge, houter, hv]
      | arr l => simp [_parse_inmet_resp, unwrapIbge, houter, hv]
  · intro kvs
    unfold collectDates
    exact collect_fold_filter kvs []
  · intro kvs k v d hnd hmem hk huniq
    unfold collectDates
    exact collect_fold_hit kvs [] k v d hnd hmem hk huniq
  · intro kvs q h
    simp [_get_min, aliasKeys, scanAliases, h, floatOfJson]
  · intro kvs s q h1 h2 h3
    simp [_get_min, aliasKeys, scanAliases, h1, h2, h3, floatOfJson]
  · intro kvs s h1 h2
    simp [_get_min, aliasKeys, scanAliases, h1, h2, floatOfJson]
  · intro kvs h1 h2
    show (match scanAliases kvs aliasKeys with
          | some r => r
          | none => scanValuesMin kvs) = none
    rw [scanAliases_none h1]
    exact scanValuesMin_none h2

/-- C8 amended witness: the shape equivalence, the per-date lookup, and
the alias-scan conclusions instantiated on concrete bodies. -/
theorem parse_inmet_resp_normalization_witness :
    _parse_inmet_resp "3550308"
        (Json.obj [("3550308", Json.obj [("2024-01-01", recX)])])
      = _parse_inmet_resp "3550308" (Json.obj [("2024-01-01", recX)]) ∧
    dayGet (collectDates [("2024-01-01", recX)]) 20240101 = _get_min recX ∧
    _get_min (.obj [("umidade_min", .num 28)]) = some 28 ∧
    _get_min (.obj [("umidade_min", .str "abc"), ("ur_min", .num 30)]) = some 30 ∧
    _get_min (.obj [("umidade_min", .str "nan")]) = none ∧
    _get_min (.obj [("foo", .num 1)]) = none :=
  ⟨parse_inmet_resp_normalization.1 "3550308" [("2024-01-01", recX)]
     (by
       intro j2 h
       rw [show jsonLookup "3550308" [("2024-01-01", recX)] = none from rfl] at h
       exact Option.noConfusion h),
   parse_inmet_resp_normalization.2.2.1 [("2024-01-01", recX)] "2024-01-01"
     recX 20240101 (by simp) (List.mem_singleton.mpr rfl) (by decide)
     (by
       intro k2 v2 h2 hne
       have h3 := List.mem_singleton.mp h2
       injection h3 with ha hb
       exact absurd ha hne),
   parse_inmet_resp_normalization.2.2.2.1 [("umidade_min", .num 28)] 28 rfl,
   parse_inmet_resp_normalization.2.2.2.2.1
     [("umidade_min", .str "abc"), ("ur_min", .num 30)] "abc" 30 rfl rfl rfl,
   parse_inmet_resp_normalization.2.2.2.2.2.1 [("umidade_min", .str "nan")]
     "nan" rfl rfl,
   parse_inmet_resp_normalization.2.2.2.2.2.2.1 [("foo", .num 1)]
     (by intro a ha; fin_cases ha <;> rfl)
     (by
       intro p hp
       have h3 := List.mem_singleton.mp hp
       rw [h3]
       rfl)⟩

/-! ## C9 — no mutual exclusion in the daily cache, but atomic stores -/

/-- C9 counterexample: the claim says two concurrent callers observing a
stale key never both trigger duplicate rebuilds; but `get_data` takes no
lock, so the interleaving check–check–store–store is reachable and both
callers rebuild. -/
theorem cache_race_counterexample :
    CReach rawX sysX0 sysX3 ∧ didRebuild sysX3.th1 ∧ didRebuild sysX3.th2 := by
  refine ⟨?_, ⟨[], rfl⟩, ⟨[], rfl⟩⟩
  apply Relation.ReflTransGen.head
    (CStep.miss1 sysX0 rfl (Or.inr (Or.inr rfl)))
  apply Relation.ReflTransGen.head
    (CStep.miss2 _ rfl (Or.inr (Or.inr rfl)))
  apply Relation.ReflTransGen.head (CStep.store1 _ rfl)
  apply Relation.ReflTransGen.head (CStep.store2 _ rfl)
  exact Relation.ReflTransGen.refl

/-- C9 amended: the check-key/rebuild/store sequence is *not* mutually
exclusive — duplicate rebuilds are reachable — but because each caller
builds its frame locally and stores the `(key, dataset)` pair in one
atomic `dict.update`, every reachable cache state is internally
consistent (the stored frame is the sanitized pipeline output for the
stored key) and every finished caller holds a fully-formed dataset for
its own key, never a partially built table. -/
theorem cache_store_consistency (raw : String → List Row) (s0 s : Sys)
    (h0 : cacheConsistent raw s0.cache)
    (h1 : threadConsistent raw s0.th1) (h2 : threadConsistent raw s0.th2)
    (hr : CReach raw s0 s) :
    cacheConsistent raw s.cache ∧ threadConsistent raw s.th1 ∧
      threadConsistent raw s.th2 := by
  induction hr with
  | refl => exact ⟨h0, h1, h2⟩
  | @tail b c hab hbc ih =>
    obtain ⟨ihc, ih1, ih2⟩ := ih
    cases hbc with
    | hit1 d hpc hf hk hd =>
      refine ⟨ihc, ?_, ih2⟩
      intro d' b' hdone
      injection hdone with hd1 hd2
      exact hd1 ▸ ihc b.th1.key d hk hd
    | miss1 hpc hm =>
      refine ⟨ihc, ?_, ih2⟩
      intro d' b' hdone
      exact TPC.noConfusion hdone
    | store1 hpc =>
      refine ⟨?_, ?_, ih2⟩
      · intro k d hk hd
        injection hk with hk2
        injection hd with hd2
        rw [← hk2, ← hd2]
      · intro d' b' hdone
        injection hdone with hd1 hd2
        rw [← hd1]
    | hit2 d hpc hf hk hd =>
      refine ⟨ihc, ih1, ?_⟩
      intro d' b' hdone
      injection hdone with hd1 hd2
      exact hd1 ▸ ihc b.th2.key d hk hd
    | miss2 hpc hm =>
      refine ⟨ihc, ih1, ?_⟩
      intro d' b' hdone
      exact TPC.noConfusion hdone
    | store2 hpc =>
      refine ⟨?_, ih1, ?_⟩
      · intro k d hk hd
        injection hk with hk2
        injection hd with hd2
        rw [← hk2, ← hd2]
      · intro d' b' hdone
        injection hdone with hd1 hd2
        rw [← hd1]

/-- C9 amended witness: from the doubly-missed state, one atomic store
yields a consistent cache and a finished caller holding the full frame. -/
theorem cache_store_consistency_witness :
    cacheConsistent rawX ⟨some "2024-01-01", some (builtFor rawX "2024-01-01")⟩ ∧
    threadConsistent rawX { thrX with pc := .done (builtFor rawX "2024-01-01") true } ∧
    threadConsistent rawX { thrX with pc := .building } :=
  cache_store_consistency rawX sysX1
    { cache := ⟨some "2024-01-01", some (builtFor rawX "2024-01-01")⟩,
      th1 := { thrX with pc := .done (builtFor rawX "2024-01-01") true },
      th2 := { thrX with pc := .building } }
    (fun k d hk hd => Option.noConfusion hk)
    (fun d b h => TPC.noConfusion h)
    (fun d b h => TPC.noConfusion h)
    (Relation.ReflTransGen.single (CStep.store1 sysX1 rfl))

